import Mathlib

/-
Verification of the format-validation engine of the genealogy_analyzer
repository (src/analysis_modules/format_validator.py), as a shallow
embedding in Lean 4.  Python strings are modelled through their character
lists (`String.data`); `datetime.datetime.strptime` (an external stdlib
collaborator of the source) is modelled by `strptimeOk` below for the
directive subset the validator's configured formats use.
-/

set_option maxRecDepth 10000

/-! ## Python string helpers (ASCII semantics) -/

/-- Model of Python `str.strip()`: drop whitespace from both ends. -/
def pyStripL (l : List Char) : List Char :=
  ((l.dropWhile Char.isWhitespace).reverse.dropWhile Char.isWhitespace).reverse

/-- `str.strip()` on `String`. -/
def pyStripS (s : String) : String := String.mk (pyStripL s.data)

/-- Model of Python `str.upper()` (ASCII range, which is all the validator uses). -/
def sUpper (s : String) : String := String.mk (s.data.map Char.toUpper)

/-- Model of Python `str.startswith`. -/
def sStartsWith (s p : String) : Bool := p.data.isPrefixOf s.data

/-- Model of Python character-index slicing `s[n:]`. -/
def sDropChars (s : String) (n : Nat) : String := String.mk (s.data.drop n)

/-- Whether `nd` occurs as a contiguous sublist of the second argument
(model of Python `nd in s`). -/
def listHasSub (nd : List Char) : List Char → Bool
  | [] => nd.isEmpty
  | c :: rest => nd.isPrefixOf (c :: rest) || listHasSub nd rest

/-- Model of Python `nd in s` on strings. -/
def strHasSub (s nd : String) : Bool := listHasSub nd.data s.data

/-- Model of Python `s.split(',')` on character lists. -/
def pySplitComma : List Char → List (List Char)
  | [] => [[]]
  | c :: rest =>
    if c = ',' then [] :: pySplitComma rest
    else
      match pySplitComma rest with
      | [] => [[c]]
      | h :: t => (c :: h) :: t

/-! ## Model of CPython `datetime.datetime.strptime` success/failure

CPython's `_strptime` builds a regex from the format (whitespace runs
become `\s+`, `%d` becomes `3[01]|[12]\d|0[1-9]|[1-9]`, `%m` becomes
`1[0-2]|0[1-9]|[1-9]`, `%b` an alternation of month abbreviations, `%Y`
exactly four digits, `%y` exactly two), compiled case-insensitively,
matched from the start and required to consume the whole input; an
unknown directive raises `ValueError` (modelled as parse failure).  After
the regex matches, constructing the date validates the day against the
month length (with the CPython leap-year fix for a bare `Feb 29`) and
requires a positive year.  Directives outside this subset are treated as
unparsable; the validator's formats never use them. -/

inductive FTok where
  | lit : Char → FTok
  | ws : FTok
  | dayD : FTok
  | monM : FTok
  | monB : FTok
  | year4 : FTok
  | year2 : FTok
deriving DecidableEq

def tokenizeFmt : List Char → Option (List FTok)
  | [] => some []
  | '%' :: c :: rest =>
    match c with
    | 'd' => (tokenizeFmt rest).map (FTok.dayD :: ·)
    | 'm' => (tokenizeFmt rest).map (FTok.monM :: ·)
    | 'b' => (tokenizeFmt rest).map (FTok.monB :: ·)
    | 'Y' => (tokenizeFmt rest).map (FTok.year4 :: ·)
    | 'y' => (tokenizeFmt rest).map (FTok.year2 :: ·)
    | '%' => (tokenizeFmt rest).map (FTok.lit '%' :: ·)
    | _ => none
  | ['%'] => none
  | c :: rest =>
    if c.isWhitespace then (tokenizeFmt rest).map (FTok.ws :: ·)
    else (tokenizeFmt rest).map (FTok.lit c :: ·)

/-- Runs of whitespace in a format collapse to a single `\s+`. -/
def collapseWs : List FTok → List FTok
  | [] => []
  | [t] => [t]
  | t1 :: t2 :: rest =>
    if t1 = FTok.ws ∧ t2 = FTok.ws then collapseWs (t2 :: rest)
    else t1 :: collapseWs (t2 :: rest)

structure PEnv where
  d : Option Nat
  m : Option Nat
  y : Option Nat

def digitVal (c : Char) : Nat := c.toNat - '0'.toNat

/-- Candidate parses for `%d` (`3[01]|[12]\d|0[1-9]|[1-9]`), in the
regex's alternation order. -/
def candDay : List Char → List (Nat × List Char)
  | c0 :: c1 :: rest =>
    (if c0 = '3' ∧ (c1 = '0' ∨ c1 = '1') then [(30 + digitVal c1, rest)]
     else if (c0 = '1' ∨ c0 = '2') ∧ c1.isDigit then [(10 * digitVal c0 + digitVal c1, rest)]
     else if c0 = '0' ∧ c1.isDigit ∧ c1 ≠ '0' then [(digitVal c1, rest)]
     else []) ++
    (if c0.isDigit ∧ c0 ≠ '0' then [(digitVal c0, c1 :: rest)] else [])
  | [c0] => if c0.isDigit ∧ c0 ≠ '0' then [(digitVal c0, [])] else []
  | [] => []

/-- Candidate parses for `%m` (`1[0-2]|0[1-9]|[1-9]`). -/
def candMonM : List Char → List (Nat × List Char)
  | c0 :: c1 :: rest =>
    (if c0 = '1' ∧ (c1 = '0' ∨ c1 = '1' ∨ c1 = '2') then [(10 + digitVal c1, rest)]
     else if c0 = '0' ∧ c1.isDigit ∧ c1 ≠ '0' then [(digitVal c1, rest)]
     else []) ++
    (if c0.isDigit ∧ c0 ≠ '0' then [(digitVal c0, c1 :: rest)] else [])
  | [c0] => if c0.isDigit ∧ c0 ≠ '0' then [(digitVal c0, [])] else []
  | [] => []

def monthAbbrs : List (Nat × List Char) :=
  [(1, ['J','A','N']), (2, ['F','E','B']), (3, ['M','A','R']), (4, ['A','P','R']),
   (5, ['M','A','Y']), (6, ['J','U','N']), (7, ['J','U','L']), (8, ['A','U','G']),
   (9, ['S','E','P']), (10, ['O','C','T']), (11, ['N','O','V']), (12, ['D','E','C'])]

/-- Case-insensitively drop a pattern from the front of a list. -/
def ciDropPre : List Char → List Char → Option (List Char)
  | [], cs => some cs
  | _ :: _, [] => none
  | p :: ps, c :: cs => if c.toUpper = p.toUpper then ciDropPre ps cs else none

/-- Candidate parses for `%b` (locale month abbreviations, case-insensitive). -/
def candMonB (cs : List Char) : List (Nat × List Char) :=
  monthAbbrs.filterMap (fun x => (ciDropPre x.2 cs).map (fun r => (x.1, r)))

/-- Candidate parse for `%Y` (exactly four digits). -/
def candY4 : List Char → List (Nat × List Char)
  | a :: b :: c :: d :: rest =>
    if a.isDigit ∧ b.isDigit ∧ c.isDigit ∧ d.isDigit then
      [(1000 * digitVal a + 100 * digitVal b + 10 * digitVal c + digitVal d, rest)]
    else []
  | _ => []

/-- Candidate parse for `%y` (two digits; `00-68` maps to `2000-2068`). -/
def candY2 : List Char → List (Nat × List Char)
  | a :: b :: rest =>
    if a.isDigit ∧ b.isDigit then
      [(if 10 * digitVal a + digitVal b ≤ 68 then 2000 + 10 * digitVal a + digitVal b
        else 1900 + 10 * digitVal a + digitVal b, rest)]
    else []
  | _ => []

/-- Greedy-with-backtracking remainders for `\s+`: from consuming all
leading whitespace down to consuming one character. -/
def wsTry (cs : List Char) : List (List Char) :=
  (List.range (cs.takeWhile Char.isWhitespace).length).map
    (fun i => cs.drop ((cs.takeWhile Char.isWhitespace).length - i))

/-- All ways a token can consume a prefix of the input, in the regex
engine's preference order, with the environment update applied. -/
def tokOpts : FTok → List Char → PEnv → List (PEnv × List Char)
  | FTok.lit c, cs, env =>
    match cs with
    | [] => []
    | c' :: rest => if c'.toUpper = c.toUpper then [(env, rest)] else []
  | FTok.ws, cs, env => (wsTry cs).map (fun rest => (env, rest))
  | FTok.dayD, cs, env => (candDay cs).map (fun x => ({ env with d := some x.1 }, x.2))
  | FTok.monM, cs, env => (candMonM cs).map (fun x => ({ env with m := some x.1 }, x.2))
  | FTok.monB, cs, env => (candMonB cs).map (fun x => ({ env with m := some x.1 }, x.2))
  | FTok.year4, cs, env => (candY4 cs).map (fun x => ({ env with y := some x.1 }, x.2))
  | FTok.year2, cs, env => (candY2 cs).map (fun x => ({ env with y := some x.1 }, x.2))

/-- Backtracking matcher requiring the whole input to be consumed
(CPython rejects "unconverted data remains"). -/
def pmatch : List FTok → List Char → PEnv → Option PEnv
  | [], cs, env => if cs.isEmpty then some env else none
  | t :: rest, cs, env => (tokOpts t cs env).findSome? (fun x => pmatch rest x.2 x.1)

def isLeapYear (y : Nat) : Bool := (y % 4 == 0 && y % 100 != 0) || y % 400 == 0

def daysInMonth (y m : Nat) : Nat :=
  if m = 2 then (if isLeapYear y then 29 else 28)
  else if m = 4 ∨ m = 6 ∨ m = 9 ∨ m = 11 then 30
  else 31

/-- Whether `datetime.datetime.strptime(s, fmt)` succeeds. -/
def strptimeOk (s fmt : String) : Bool :=
  match tokenizeFmt fmt.data with
  | none => false
  | some toks =>
    match pmatch (collapseWs toks) s.data { d := none, m := none, y := none } with
    | none => false
    | some env =>
      let month := env.m.getD 1
      let year :=
        match env.y with
        | some y => y
        | none => if month = 2 ∧ env.d = some 29 then 1984 else 1900
      let day := env.d.getD 1
      decide (1 ≤ year) && decide (day ≤ daysInMonth year month)

/-! ## format_validator.py : finding builder and field validators -/

/-- A finding is a Python dict with string keys and string values; the
ordered association list keeps dict-key presence observable. -/
abbrev Finding := List (String × String)

/-- Python truthiness of an optional string (`None` and `""` are falsy). -/
def pyTruthy : Option String → Bool
  | none => false
  | some s => if s = "" then false else true

/-- Translation of `_create_finding`: the six mandatory keys, then
`rule_violated` and `suggestion` appended only when truthy. -/
def _create_finding (issue_type record_type element_xref_id element_tag_path
    problematic_value message : String)
    (rule_violated suggestion : Option String) : Finding :=
  ((([("issue_type", issue_type), ("record_type", record_type),
      ("element_xref_id", element_xref_id), ("element_tag_path", element_tag_path),
      ("problematic_value", problematic_value), ("message", message)] : Finding)
    ++ (if pyTruthy rule_violated then [("rule_violated", rule_violated.getD "")] else []))
    ++ (if pyTruthy suggestion then [("suggestion", suggestion.getD "")] else []))

/-- Translation of `_is_date_parsable`: empty is unparsable, otherwise
try each format on the stripped string (`strptime` success = `strptimeOk`). -/
def _is_date_parsable (single_date_str : String) (preferred_formats : List String) : Bool :=
  if single_date_str = "" then false
  else preferred_formats.any (fun fmt => strptimeOk (pyStripS single_date_str) fmt)

def prefixes_to_strip : List String :=
  ["ABT ", "CAL ", "EST ", "INT ", "BEF ", "AFT ", "FROM ", "TO "]

/-- Indices at which `" AND "` occurs, case-insensitively. -/
def andIdxs (l : List Char) : List Nat :=
  (List.range l.length).filter
    (fun i => ((l.drop i).take 5).map Char.toUpper == [' ', 'A', 'N', 'D', ' '])

/-- The first line of a character list (regex `.` does not cross `'\n'`). -/
def pyFirstLine (l : List Char) : List Char := l.takeWhile (fun c => !(c == '\n'))

/-- Model of `re.match(r"BET (.*) AND (.*)", s, re.IGNORECASE)`: the
pattern anchors `BET ` at the start; the greedy first group makes the
match split at the LAST `" AND "` of the first line after `BET `, and the
second group stops at the end of that line. -/
def betMatch (s : String) : Option (String × String) :=
  if sStartsWith (sUpper s) "BET " then
    match (andIdxs (pyFirstLine (s.data.drop 4))).getLast? with
    | some i =>
      some (String.mk ((pyFirstLine (s.data.drop 4)).take i),
            String.mk ((pyFirstLine (s.data.drop 4)).drop (i + 5)))
    | none => none
  else none

/-- Translation of `_validate_date_value`: empty is valid; a
`BET ... AND ...` expression is valid iff both regex groups (stripped)
are parsable; otherwise the first matching qualifier in
`prefixes_to_strip` is removed and the remainder must be parsable. -/
def _validate_date_value (date_str : String) (preferred_formats : List String) : Bool :=
  if date_str = "" then true
  else
    if sStartsWith (sUpper date_str) "BET " && strHasSub (sUpper date_str) " AND " then
      match betMatch date_str with
      | some x => _is_date_parsable (pyStripS x.1) preferred_formats &&
                  _is_date_parsable (pyStripS x.2) preferred_formats
      | none => false
    else
      match prefixes_to_strip.find? (fun p => sStartsWith (sUpper date_str) p) with
      | some p => _is_date_parsable (sDropChars date_str p.data.length) preferred_formats
      | none => _is_date_parsable date_str preferred_formats

/-- Translation of `_validate_place_structure`: empty is valid; otherwise
compare the comma-segment count with each template's, with the extra
single-segment rule. -/
def _validate_place_structure (place_str : String) (expected_structures : List String) : Bool :=
  if place_str = "" then true
  else
    if expected_structures.any
        (fun t => (pySplitComma place_str.data).length == (pySplitComma t.data).length) then true
    else if (pySplitComma place_str.data).length == 1 &&
            expected_structures.any (fun t => (pySplitComma t.data).length == 1) then true
    else false

/-! ## Record-tree collaborator and orchestrator -/

/-- A node of the record tree, as exposed by the external reader: its
tag, optional cross-reference id, trailing text value, the
reader-derived surname (empty when none was extracted; meaningful on
NAME tags), and its child elements. -/
inductive GedElem where
  | mk : String → Option String → String → String → List GedElem → GedElem

def GedElem.tag : GedElem → String | .mk t _ _ _ _ => t
def GedElem.xref_id : GedElem → Option String | .mk _ x _ _ _ => x
def GedElem.value : GedElem → String | .mk _ _ v _ _ => v
def GedElem.surname : GedElem → String | .mk _ _ _ sn _ => sn
def GedElem.children : GedElem → List GedElem | .mk _ _ _ _ c => c

/-- Reader interface `child_tag`: the first child with the given tag. -/
def GedElem.child_tag (e : GedElem) (t : String) : Option GedElem :=
  e.children.find? (fun c => c.tag == t)

/-- Reader interface `children_tags`: all children with the given tag. -/
def GedElem.children_tags (e : GedElem) (t : String) : List GedElem :=
  e.children.filter (fun c => c.tag == t)

/-- The reader handle: top-level records by kind. -/
structure GedcomReader where
  indis : List GedElem
  fams : List GedElem

def GedcomReader.records0 (r : GedcomReader) (t : String) : List GedElem :=
  if t = "INDI" then r.indis else if t = "FAM" then r.fams else []

structure NameValidationRules where
  enforce_surname_slashes : Option Bool

/-- The configuration dict: every key optional, mirroring `config.get`. -/
structure Config where
  preferred_date_formats : Option (List String)
  expected_place_format_structures : Option (List String)
  name_validation_rules : Option NameValidationRules

/-- Python `x if x else dflt` on an optional id string. -/
def pyOrStr (o : Option String) (dflt : String) : String :=
  match o with
  | some s => if s = "" then dflt else s
  | none => dflt

/-- Translation of the NAME-validation block of `validate_formats` for
one individual record. -/
def nameFindings (enforce_surname_slashes : Bool) (indi_id path_base : String)
    (indi : GedElem) : List Finding :=
  match indi.child_tag "NAME" with
  | none => []
  | some name_tag =>
    if pyStripS name_tag.value = "" ∨ pyStripS name_tag.value = "/" ∨
        pyStripS name_tag.value = "//" then
      [_create_finding "Format Error" "Individual" indi_id (path_base ++ "/NAME")
        name_tag.value "Name is missing or appears to be empty." none none]
    else if enforce_surname_slashes then
      if name_tag.surname = "" ∧ ¬ ('/' ∈ name_tag.value.data) then
        [_create_finding "Format Error" "Individual" indi_id (path_base ++ "/NAME")
          name_tag.value
          "Name does not appear to use standard GEDCOM surname slashes (e.g., First /Surname/)."
          none (some "Ensure surname is enclosed in slashes like /SURNAME/.")]
      else if '/' ∈ name_tag.value.data ∧ name_tag.surname = "" ∧
          2 ≤ name_tag.value.data.count '/' then
        [_create_finding "Format Error" "Individual" indi_id (path_base ++ "/NAME")
          name_tag.value
          "Name contains slashes, but surname part might be empty or malformed (e.g., 'Name / /')."
          none (some "Check surname formatting between slashes.")]
      else []
    else []

/-- Translation of one DATE check inside an event (shared shape of the
individual and family blocks; they differ in record type and in the tail
of the suggestion message). -/
def eventDateFindings (record_type sugTail : String) (preferred_date_formats : List String)
    (rec_id event_path : String) (event_element : GedElem) : List Finding :=
  match event_element.child_tag "DATE" with
  | none => []
  | some date_tag =>
    if date_tag.value = "" then []
    else
      if pyStripS date_tag.value ≠ "" ∧
          _validate_date_value (pyStripS date_tag.value) preferred_date_formats = false then
        [_create_finding "Format Error" record_type rec_id (event_path ++ "/DATE")
          (pyStripS date_tag.value)
          ("Date format for " ++ event_element.tag ++ " ('" ++ pyStripS date_tag.value
            ++ "') invalid.")
          (some "preferred_date_formats")
          (some ("Supported formats: " ++ String.intercalate ", " preferred_date_formats
            ++ sugTail))]
      else []

/-- Translation of one PLAC check inside an event.  Building the
suggestion message evaluates `expected_place_structures[0]`, which
raises `IndexError` on an empty list: the exceptional outcome is the
`Except.error` branch. -/
def eventPlaceFindingsE (record_type tailMsg : String)
    (expected_place_structures : List String)
    (rec_id event_path : String) (event_element : GedElem) : Except String (List Finding) :=
  match event_element.child_tag "PLAC" with
  | none => .ok []
  | some place_tag =>
    if place_tag.value = "" then .ok []
    else
      if pyStripS place_tag.value ≠ "" ∧
          _validate_place_structure (pyStripS place_tag.value) expected_place_structures
            = false then
        match expected_place_structures with
        | [] => .error "IndexError: list index out of range"
        | s0 :: _ =>
          .ok [_create_finding "Format Error" record_type rec_id (event_path ++ "/PLAC")
            (pyStripS place_tag.value)
            ("Place format for " ++ event_element.tag ++ " ('" ++ pyStripS place_tag.value
              ++ "') " ++ tailMsg)
            (some "expected_place_format_structures")
            (some ("Expected parts (by comma count): "
              ++ toString (pySplitComma s0.data).length ++ " for '" ++ s0 ++ "' etc."))]
      else .ok []

/-- The PLAC check's findings on runs where no exception occurs. -/
def eventPlaceFindingsP (record_type tailMsg : String)
    (expected_place_structures : List String)
    (rec_id event_path : String) (event_element : GedElem) : List Finding :=
  match event_element.child_tag "PLAC" with
  | none => []
  | some place_tag =>
    if place_tag.value = "" then []
    else
      if pyStripS place_tag.value ≠ "" ∧
          _validate_place_structure (pyStripS place_tag.value) expected_place_structures
            = false then
        match expected_place_structures with
        | [] => []
        | s0 :: _ =>
          [_create_finding "Format Error" record_type rec_id (event_path ++ "/PLAC")
            (pyStripS place_tag.value)
            ("Place format for " ++ event_element.tag ++ " ('" ++ pyStripS place_tag.value
              ++ "') " ++ tailMsg)
            (some "expected_place_format_structures")
            (some ("Expected parts (by comma count): "
              ++ toString (pySplitComma s0.data).length ++ " for '" ++ s0 ++ "' etc."))]
      else []

def event_tags_to_check : List String := ["BIRT", "DEAT", "CHR", "ADOP", "BURI", "EVEN"]

def family_event_tags_to_check : List String := ["MARR", "DIV", "ANUL", "ENGA", "EVEN"]

/-- Sequence a finding-producing step over a list, propagating the first
exception (as Python's loop does: an exception aborts the traversal and
discards the findings accumulated so far). -/
def exceptFoldList (f : α → Except String (List Finding)) : List α → Except String (List Finding)
  | [] => .ok []
  | x :: xs => do
    let h ← f x
    let t ← exceptFoldList f xs
    pure (h ++ t)

def indiEventFindingsE (fmts structs : List String) (indi_id path_base : String)
    (ev : GedElem) : Except String (List Finding) := do
  let p ← eventPlaceFindingsE "Event (Individual)"
      "does not match expected structures based on comma count." structs indi_id
      (path_base ++ "/" ++ ev.tag) ev
  pure (eventDateFindings "Event (Individual)"
      " or GEDCOM date phrases (ABT, BEF, BET...AND...)." fmts indi_id
      (path_base ++ "/" ++ ev.tag) ev ++ p)

def indiFindingsE (fmts structs : List String) (enforce : Bool)
    (indi : GedElem) : Except String (List Finding) := do
  let evs ← exceptFoldList (fun tagStr =>
      exceptFoldList
        (indiEventFindingsE fmts structs (pyOrStr indi.xref_id "UNKNOWN_INDI")
          ("INDI:" ++ pyOrStr indi.xref_id "UNKNOWN_INDI"))
        (indi.children_tags tagStr)) event_tags_to_check
  pure (nameFindings enforce (pyOrStr indi.xref_id "UNKNOWN_INDI")
      ("INDI:" ++ pyOrStr indi.xref_id "UNKNOWN_INDI") indi ++ evs)

def famEventFindingsE (fmts structs : List String) (fam_id path_base : String)
    (ev : GedElem) : Except String (List Finding) := do
  let p ← eventPlaceFindingsE "Event (Family)"
      "does not match structures based on comma count." structs fam_id
      (path_base ++ "/" ++ ev.tag) ev
  pure (eventDateFindings "Event (Family)" " or GEDCOM date phrases." fmts fam_id
      (path_base ++ "/" ++ ev.tag) ev ++ p)

def famFindingsE (fmts structs : List String) (fam : GedElem) : Except String (List Finding) :=
  exceptFoldList (fun tagStr =>
      exceptFoldList
        (famEventFindingsE fmts structs (pyOrStr fam.xref_id "UNKNOWN_FAM")
          ("FAM:" ++ pyOrStr fam.xref_id "UNKNOWN_FAM"))
        (fam.children_tags tagStr)) family_event_tags_to_check

/-- Translation of `validate_formats`: extract the configuration with
its `get` defaults, then traverse individuals and families in order.  A
Python exception (the reachable `IndexError`) is the `error` outcome. -/
def validate_formats (gedcom_reader : GedcomReader) (config : Config) :
    Except String (List Finding) := do
  let i ← exceptFoldList
      (indiFindingsE (config.preferred_date_formats.getD [])
        (config.expected_place_format_structures.getD [])
        (((config.name_validation_rules.getD
            { enforce_surname_slashes := none }).enforce_surname_slashes).getD true))
      (gedcom_reader.records0 "INDI")
  let f ← exceptFoldList
      (famFindingsE (config.preferred_date_formats.getD [])
        (config.expected_place_format_structures.getD []))
      (gedcom_reader.records0 "FAM")
  pure (i ++ f)

/-- The findings of one individual event on an exception-free run: date
finding (if any) before place finding (if any). -/
def indiEventFindingsP (fmts structs : List String) (indi_id path_base : String)
    (ev : GedElem) : List Finding :=
  eventDateFindings "Event (Individual)"
    " or GEDCOM date phrases (ABT, BEF, BET...AND...)." fmts indi_id
    (path_base ++ "/" ++ ev.tag) ev ++
  eventPlaceFindingsP "Event (Individual)"
    "does not match expected structures based on comma count." structs indi_id
    (path_base ++ "/" ++ ev.tag) ev

/-- The findings of one family event on an exception-free run. -/
def famEventFindingsP (fmts structs : List String) (fam_id path_base : String)
    (ev : GedElem) : List Finding :=
  eventDateFindings "Event (Family)" " or GEDCOM date phrases." fmts fam_id
    (path_base ++ "/" ++ ev.tag) ev ++
  eventPlaceFindingsP "Event (Family)" "does not match structures based on comma count."
    structs fam_id (path_base ++ "/" ++ ev.tag) ev

/-- The findings of one individual record on an exception-free run, in
traversal order: name first, then events in the fixed tag order, date
before place within each event. -/
def indiFindingsP (fmts structs : List String) (enforce : Bool) (indi : GedElem) : List Finding :=
  nameFindings enforce (pyOrStr indi.xref_id "UNKNOWN_INDI")
    ("INDI:" ++ pyOrStr indi.xref_id "UNKNOWN_INDI") indi ++
  event_tags_to_check.flatMap (fun tagStr =>
    (indi.children_tags tagStr).flatMap
      (indiEventFindingsP fmts structs (pyOrStr indi.xref_id "UNKNOWN_INDI")
        ("INDI:" ++ pyOrStr indi.xref_id "UNKNOWN_INDI")))

/-- The findings of one family record on an exception-free run. -/
def famFindingsP (fmts structs : List String) (fam : GedElem) : List Finding :=
  family_event_tags_to_check.flatMap (fun tagStr =>
    (fam.children_tags tagStr).flatMap
      (famEventFindingsP fmts structs (pyOrStr fam.xref_id "UNKNOWN_FAM")
        ("FAM:" ++ pyOrStr fam.xref_id "UNKNOWN_FAM")))

/-- The whole finding sequence of an exception-free run, in traversal
order: all individuals' findings, then all families'. -/
def orderedFindings (gedcom_reader : GedcomReader) (config : Config) : List Finding :=
  (gedcom_reader.records0 "INDI").flatMap
    (indiFindingsP (config.preferred_date_formats.getD [])
      (config.expected_place_format_structures.getD [])
      (((config.name_validation_rules.getD
          { enforce_surname_slashes := none }).enforce_surname_slashes).getD true)) ++
  (gedcom_reader.records0 "FAM").flatMap
    (famFindingsP (config.preferred_date_formats.getD [])
      (config.expected_place_format_structures.getD []))

/-! ## Spec-shaped definitions and concrete fixtures -/

/-- Modelled from the claim's words: treat the text as
`BET <left> AND <right>` split at the FIRST occurrence of `" AND "`
(case-insensitive) after `BET `, trim both sides and require both to be
parsable. -/
def betRangeValidFirstSplit (s : String) (fmts : List String) : Bool :=
  match (andIdxs (s.data.drop 4)).head? with
  | some i =>
    _is_date_parsable (pyStripS (String.mk ((s.data.drop 4).take i))) fmts &&
    _is_date_parsable (pyStripS (String.mk ((s.data.drop 4).drop (i + 5)))) fmts
  | none => false

/-- As `betRangeValidFirstSplit`, but splitting at the LAST occurrence
of `" AND "` (the greedy regex's behaviour). -/
def betRangeValidLastSplit (s : String) (fmts : List String) : Bool :=
  match (andIdxs (s.data.drop 4)).getLast? with
  | some i =>
    _is_date_parsable (pyStripS (String.mk ((s.data.drop 4).take i))) fmts &&
    _is_date_parsable (pyStripS (String.mk ((s.data.drop 4).drop (i + 5)))) fmts
  | none => false

/-- Dict-key presence in a finding. -/
def hasKey (f : Finding) (k : String) : Bool := f.any (fun kv => kv.1 == k)

/-- A configuration with every key absent (all `config.get` defaults apply). -/
def cfgAllAbsent : Config :=
  { preferred_date_formats := none, expected_place_format_structures := none,
    name_validation_rules := none }

/-- An individual whose birth event has a place value that matches no
template (in particular none when the template list is empty). -/
def c2Indi : GedElem :=
  .mk "INDI" (some "@I1@") "" "" [.mk "BIRT" none "" "" [.mk "PLAC" none "SomeCity, SomeState" "" []]]

def c2Reader : GedcomReader := { indis := [c2Indi], fams := [] }

/-- An individual whose birth event has a date value; with no configured
formats it yields a (pure) date finding. -/
def c3IndiDate : GedElem :=
  .mk "INDI" (some "@I2@") "" "" [.mk "BIRT" none "" "" [.mk "DATE" none "1 JAN 1900" "" []]]

def c3Reader : GedcomReader := { indis := [c2Indi, c3IndiDate], fams := [] }

def c3ReaderB : GedcomReader := { indis := [c3IndiDate], fams := [] }

/-- The date finding `validate_formats` produces for `c3IndiDate` under
`cfgAllAbsent` (empty preferred-formats list). -/
def dateFindingI2 : Finding :=
  [("issue_type", "Format Error"), ("record_type", "Event (Individual)"),
   ("element_xref_id", "@I2@"), ("element_tag_path", "INDI:@I2@/BIRT/DATE"),
   ("problematic_value", "1 JAN 1900"),
   ("message", "Date format for BIRT ('1 JAN 1900') invalid."),
   ("rule_violated", "preferred_date_formats"),
   ("suggestion", "Supported formats:  or GEDCOM date phrases (ABT, BEF, BET...AND...).")]

/-- A configuration with a non-empty place-template list. -/
def cfgFull : Config :=
  { preferred_date_formats := some ["%d %b %Y"],
    expected_place_format_structures := some ["City, State, Country"],
    name_validation_rules := none }

/-- An individual whose name has two slashes but no extracted surname. -/
def c6Indi : GedElem := .mk "INDI" (some "@I9@") "" "" [.mk "NAME" none "Name / /" "" []]

/-! ## Helper lemmas -/

theorem stringEqEmptyIff (s : String) : s = "" ↔ s.data = [] := by
  cases s with
  | mk l =>
    constructor
    · intro h
      exact congrArg String.data h
    · intro h
      show String.mk l = ""
      rw [show l = [] from h]

theorem takeWhileAll {p : α → Bool} {l : List α} (h : ∀ c ∈ l, p c = true) :
    l.takeWhile p = l := by
  induction l with
  | nil => rfl
  | cons a l ih =>
    rw [List.takeWhile]
    rw [h a (List.mem_cons_self a l)]
    simp only [List.cons.injEq, true_and]
    exact ih (fun c hc => h c (List.mem_cons_of_mem a hc))

theorem parsableNil (s : String) : _is_date_parsable s [] = false := by
  unfold _is_date_parsable
  split <;> simp

theorem exceptBindOkInv {β γ : Type} {x : Except String β} {f : β → Except String γ} {v : γ}
    (h : (x >>= f) = .ok v) : ∃ w, x = .ok w ∧ f w = .ok v := by
  cases x with
  | error e => simp [Bind.bind, Except.bind] at h
  | ok w =>
    refine ⟨w, rfl, ?_⟩
    simpa [Bind.bind, Except.bind] using h

theorem exceptFoldListOkOf (f : α → Except String (List Finding)) (g : α → List Finding)
    (hfg : ∀ x, f x = .ok (g x)) : ∀ xs : List α, exceptFoldList f xs = .ok (xs.flatMap g) := by
  intro xs
  induction xs with
  | nil => rfl
  | cons x xs ih =>
    show (f x >>= fun h => exceptFoldList f xs >>= fun t => pure (h ++ t)) = _
    rw [hfg x, ih]
    rfl

theorem exceptFoldListOkInv (f : α → Except String (List Finding)) (g : α → List Finding)
    (hfg : ∀ x v, f x = .ok v → v = g x) :
    ∀ (xs : List α) (l : List Finding), exceptFoldList f xs = .ok l → l = xs.flatMap g := by
  intro xs
  induction xs with
  | nil =>
    intro l hl
    have : ([] : List Finding) = l := by
      simpa [exceptFoldList] using hl
    simp [← this]
  | cons x xs ih =>
    intro l hl
    have hl' : (f x >>= fun h => exceptFoldList f xs >>= fun t => pure (h ++ t)) = .ok l := hl
    obtain ⟨w, hw, hrest⟩ := exceptBindOkInv hl'
    obtain ⟨t, ht, hpure⟩ := exceptBindOkInv hrest
    have hlw : l = w ++ t := by
      have : Except.ok (ε := String) (w ++ t) = .ok l := hpure
      simpa using this.symm
    rw [hlw, hfg x w hw, ih t ht]
    rfl

theorem placeEOk (rt tm : String) (structs : List String) (a b : String) (ev : GedElem)
    (h : structs ≠ []) :
    eventPlaceFindingsE rt tm structs a b ev = .ok (eventPlaceFindingsP rt tm structs a b ev) := by
  unfold eventPlaceFindingsE eventPlaceFindingsP
  cases ev.child_tag "PLAC" with
  | none => rfl
  | some pt =>
    by_cases h1 : pt.value = ""
    · simp [h1]
    · by_cases h2 : pyStripS pt.value ≠ "" ∧
          _validate_place_structure (pyStripS pt.value) structs = false
      · cases structs with
        | nil => exact absurd rfl h
        | cons s0 rest => simp [h1, h2]
      · simp [h1, h2]

theorem placeETotal (rt tm : String) (structs : List String) (a b : String) (ev : GedElem) :
    eventPlaceFindingsE rt tm structs a b ev = .ok (eventPlaceFindingsP rt tm structs a b ev) ∨
    eventPlaceFindingsE rt tm structs a b ev = .error "IndexError: list index out of range" := by
  unfold eventPlaceFindingsE eventPlaceFindingsP
  cases ev.child_tag "PLAC" with
  | none => left; rfl
  | some pt =>
    by_cases h1 : pt.value = ""
    · left; simp [h1]
    · by_cases h2 : pyStripS pt.value ≠ "" ∧
          _validate_place_structure (pyStripS pt.value) structs = false
      · cases structs with
        | nil => right; simp [h1, h2]
        | cons s0 rest => left; simp [h1, h2]
      · left; simp [h1, h2]

theorem placeEOkInv (rt tm : String) (structs : List String) (a b : String) (ev : GedElem)
    (v : List Finding) (h : eventPlaceFindingsE rt tm structs a b ev = .ok v) :
    v = eventPlaceFindingsP rt tm structs a b ev := by
  cases placeETotal rt tm structs a b ev with
  | inl hok =>
    rw [hok] at h
    exact (Except.ok.inj h).symm
  | inr herr =>
    rw [herr] at h
    exact absurd h (by simp)

theorem indiEventEOk (fmts structs : List String) (a b : String) (ev : GedElem)
    (h : structs ≠ []) :
    indiEventFindingsE fmts structs a b ev = .ok (indiEventFindingsP fmts structs a b ev) := by
  unfold indiEventFindingsE indiEventFindingsP
  rw [placeEOk _ _ _ _ _ _ h]
  rfl

theorem famEventEOk (fmts structs : List String) (a b : String) (ev : GedElem)
    (h : structs ≠ []) :
    famEventFindingsE fmts structs a b ev = .ok (famEventFindingsP fmts structs a b ev) := by
  unfold famEventFindingsE famEventFindingsP
  rw [placeEOk _ _ _ _ _ _ h]
  rfl

theorem indiEventEInv (fmts structs : List String) (a b : String) (ev : GedElem)
    (v : List Finding) (h : indiEventFindingsE fmts structs a b ev = .ok v) :
    v = indiEventFindingsP fmts structs a b ev := by
  unfold indiEventFindingsE at h
  obtain ⟨w, hw, hv⟩ := exceptBindOkInv h
  have : v = eventDateFindings "Event (Individual)"
      " or GEDCOM date phrases (ABT, BEF, BET...AND...)." fmts a (b ++ "/" ++ ev.tag) ev ++ w := by
    have := Except.ok.inj hv
    exact this.symm
  rw [this, placeEOkInv _ _ _ _ _ _ _ hw]
  rfl

theorem famEventEInv (fmts structs : List String) (a b : String) (ev : GedElem)
    (v : List Finding) (h : famEventFindingsE fmts structs a b ev = .ok v) :
    v = famEventFindingsP fmts structs a b ev := by
  unfold famEventFindingsE at h
  obtain ⟨w, hw, hv⟩ := exceptBindOkInv h
  have : v = eventDateFindings "Event (Family)" " or GEDCOM date phrases." fmts a
      (b ++ "/" ++ ev.tag) ev ++ w := by
    have := Except.ok.inj hv
    exact this.symm
  rw [this, placeEOkInv _ _ _ _ _ _ _ hw]
  rfl

theorem indiFindingsEOk (fmts structs : List String) (enforce : Bool) (indi : GedElem)
    (h : structs ≠ []) :
    indiFindingsE fmts structs enforce indi = .ok (indiFindingsP fmts structs enforce indi) := by
  unfold indiFindingsE indiFindingsP
  rw [exceptFoldListOkOf _
    (fun tagStr => (indi.children_tags tagStr).flatMap
      (indiEventFindingsP fmts structs (pyOrStr indi.xref_id "UNKNOWN_INDI")
        ("INDI:" ++ pyOrStr indi.xref_id "UNKNOWN_INDI")))
    (fun tagStr => exceptFoldListOkOf _ _ (fun ev => indiEventEOk fmts structs _ _ ev h) _)]
  rfl

theorem famFindingsEOk (fmts structs : List String) (fam : GedElem)
    (h : structs ≠ []) :
    famFindingsE fmts structs fam = .ok (famFindingsP fmts structs fam) := by
  unfold famFindingsE famFindingsP
  rw [exceptFoldListOkOf _
    (fun tagStr => (fam.children_tags tagStr).flatMap
      (famEventFindingsP fmts structs (pyOrStr fam.xref_id "UNKNOWN_FAM")
        ("FAM:" ++ pyOrStr fam.xref_id "UNKNOWN_FAM")))
    (fun tagStr => exceptFoldListOkOf _ _ (fun ev => famEventEOk fmts structs _ _ ev h) _)]

theorem indiFindingsEInv (fmts structs : List String) (enforce : Bool) (indi : GedElem)
    (v : List Finding) (h : indiFindingsE fmts structs enforce indi = .ok v) :
    v = indiFindingsP fmts structs enforce indi := by
  unfold indiFindingsE at h
  obtain ⟨w, hw, hv⟩ := exceptBindOkInv h
  have hveq : v = nameFindings enforce (pyOrStr indi.xref_id "UNKNOWN_INDI")
      ("INDI:" ++ pyOrStr indi.xref_id "UNKNOWN_INDI") indi ++ w := (Except.ok.inj hv).symm
  have hwq := exceptFoldListOkInv _
    (fun tagStr => (indi.children_tags tagStr).flatMap
      (indiEventFindingsP fmts structs (pyOrStr indi.xref_id "UNKNOWN_INDI")
        ("INDI:" ++ pyOrStr indi.xref_id "UNKNOWN_INDI")))
    (fun tagStr u hu => exceptFoldListOkInv _ _
      (fun ev u' hu' => indiEventEInv fmts structs _ _ ev u' hu') _ u hu) _ w hw
  rw [hveq, hwq]
  rfl

theorem famFindingsEInv (fmts structs : List String) (fam : GedElem)
    (v : List Finding) (h : famFindingsE fmts structs fam = .ok v) :
    v = famFindingsP fmts structs fam := by
  unfold famFindingsE at h
  exact exceptFoldListOkInv _
    (fun tagStr => (fam.children_tags tagStr).flatMap
      (famEventFindingsP fmts structs (pyOrStr fam.xref_id "UNKNOWN_FAM")
        ("FAM:" ++ pyOrStr fam.xref_id "UNKNOWN_FAM")))
    (fun tagStr u hu => exceptFoldListOkInv _ _
      (fun ev u' hu' => famEventEInv fmts structs _ _ ev u' hu') _ u hu) _ v h

theorem validateFormatsOk (reader : GedcomReader) (config : Config)
    (h : config.expected_place_format_structures.getD [] ≠ []) :
    validate_formats reader config = .ok (orderedFindings reader config) := by
  unfold validate_formats orderedFindings
  rw [exceptFoldListOkOf _ _
    (fun indi => indiFindingsEOk _ _ _ indi h) (reader.records0 "INDI")]
  rw [exceptFoldListOkOf _ _
    (fun fam => famFindingsEOk _ _ fam h) (reader.records0 "FAM")]
  rfl

theorem validateFormatsOkInv (reader : GedcomReader) (config : Config)
    (l : List Finding) (h : validate_formats reader config = .ok l) :
    l = orderedFindings reader config := by
  unfold validate_formats at h
  obtain ⟨i, hi, hrest⟩ := exceptBindOkInv h
  obtain ⟨f, hf, hpure⟩ := exceptBindOkInv hrest
  have hl : l = i ++ f := (Except.ok.inj hpure).symm
  have hieq := exceptFoldListOkInv _ _
    (fun indi v hv => indiFindingsEInv _ _ _ indi v hv) _ i hi
  have hfeq := exceptFoldListOkInv _ _
    (fun fam v hv => famFindingsEInv _ _ fam v hv) _ f hf
  rw [hl, hieq, hfeq]
  rfl

/-! ## Claim theorems -/

/-- C2: the spec claims `validate_formats` completes normally and
returns a finding list when `expected_place_format_structures` is absent
or empty; the code instead raises `IndexError` while evaluating
`expected_place_structures[0]` for the finding's suggestion message, as
soon as any non-empty place value fails the (then always-failing)
structure check.  Here it is evaluated at such an input. -/
theorem C2_thm :
    validate_formats c2Reader cfgAllAbsent =
      Except.error "IndexError: list index out of range" := by
  rfl

/-- C1 (amended): for a text that begins with `BET ` and contains
`" AND "` (case-insensitively) and has no newline, the validator splits
at the LAST occurrence of `" AND "` after `BET ` (the greedy regex
`BET (.*) AND (.*)`), trims both sides, applies no qualifier-prefix
stripping to either side, and accepts iff both sides are independently
parsable; the claim's two examples hold as stated. -/
theorem C1_thm :
    (∀ (s : String) (fmts : List String),
      sStartsWith (sUpper s) "BET " = true →
      strHasSub (sUpper s) " AND " = true →
      '\n' ∉ s.data →
      _validate_date_value s fmts = betRangeValidLastSplit s fmts) ∧
    _validate_date_value "BET 1 MAR 1990 AND 5 MAR 1990" ["%d %b %Y"] = true ∧
    _validate_date_value "BET 1 JAN 2000 AND UNKNOWN" ["%d %b %Y"] = false := by
  refine ⟨?_, by decide, by decide⟩
  intro s fmts h1 h2 hnl
  have hsne : s ≠ "" := by
    intro he
    rw [he] at h1
    exact absurd h1 (by decide)
  have hline : pyFirstLine (s.data.drop 4) = s.data.drop 4 := by
    apply takeWhileAll
    intro c hc
    have hcs : c ∈ s.data := List.drop_subset _ _ hc
    have hcne : c ≠ '\n' := fun hee => hnl (hee ▸ hcs)
    simp [hcne]
  unfold _validate_date_value betRangeValidLastSplit
  rw [if_neg hsne, h1, h2]
  simp only [Bool.and_self, if_true]
  unfold betMatch
  rw [h1, hline]
  simp only [if_true]
  cases (andIdxs (s.data.drop 4)).getLast? with
  | none => rfl
  | some i => rfl

/-- C1 counterexample: the code accepts this range because the greedy
regex splits at the last `" AND "` (`"1990 AND xx"` / `"1992"`), while
the claim's first-occurrence split (`"1990"` / `"xx AND 1992"`) would
reject it. -/
theorem C1_counterexample :
    _validate_date_value "BET 1990 AND xx AND 1992" ["%Y AND xx", "%Y"] = true ∧
    betRangeValidFirstSplit "BET 1990 AND xx AND 1992" ["%Y AND xx", "%Y"] = false := by
  constructor <;> decide

/-- C1 witness: the amended statement applied at a concrete range. -/
theorem C1_witness :
    _validate_date_value "BET 1 MAR 1990 AND 5 MAR 1990" ["%d %b %Y"] =
      betRangeValidLastSplit "BET 1 MAR 1990 AND 5 MAR 1990" ["%d %b %Y"] :=
  C1_thm.1 "BET 1 MAR 1990 AND 5 MAR 1990" ["%d %b %Y"] (by decide) (by decide) (by decide)

/-- C9 counterexample: `rule_violated` is supplied (as the empty string)
yet the key is absent from the resulting finding, refuting
presence-iff-supplied. -/
theorem C9_counterexample :
    hasKey (_create_finding "Format Error" "Individual" "@I1@" "INDI:@I1@/NAME" "x" "msg"
      (some "") none) "rule_violated" = false := by
  decide

/-- C9 (amended): the six mandatory keys are always present, and
`rule_violated` (resp. `suggestion`) is present iff that argument was
supplied with a truthy (non-empty) value; when it is absent, `None`, or
empty, the key is omitted entirely, never present with a null value. -/
theorem C9_thm (it rt ex tp pv msg : String) (r sg : Option String) :
    hasKey (_create_finding it rt ex tp pv msg r sg) "issue_type" = true ∧
    hasKey (_create_finding it rt ex tp pv msg r sg) "record_type" = true ∧
    hasKey (_create_finding it rt ex tp pv msg r sg) "element_xref_id" = true ∧
    hasKey (_create_finding it rt ex tp pv msg r sg) "element_tag_path" = true ∧
    hasKey (_create_finding it rt ex tp pv msg r sg) "problematic_value" = true ∧
    hasKey (_create_finding it rt ex tp pv msg r sg) "message" = true ∧
    hasKey (_create_finding it rt ex tp pv msg r sg) "rule_violated" = pyTruthy r ∧
    hasKey (_create_finding it rt ex tp pv msg r sg) "suggestion" = pyTruthy sg := by
  cases hr : pyTruthy r <;> cases hs : pyTruthy sg <;>
    simp [hasKey, _create_finding, hr, hs]

theorem pyStripSEmpty : pyStripS "" = "" := rfl

theorem validateNilFalse (s : String) (h : s ≠ "") : _validate_date_value s [] = false := by
  unfold _validate_date_value
  rw [if_neg h]
  by_cases hb : (sStartsWith (sUpper s) "BET " && strHasSub (sUpper s) " AND ") = true
  · rw [if_pos hb]
    cases betMatch s with
    | none => rfl
    | some x => simp [parsableNil]
  · rw [if_neg hb]
    cases prefixes_to_strip.find? (fun q => sStartsWith (sUpper s) q) with
    | none => exact parsableNil s
    | some p => exact parsableNil _

/-- C4: for a non-range date text whose uppercased form starts with one
of the eight qualifier prefixes, the first match in the fixed priority
order of `prefixes_to_strip` is stripped (exactly that many characters)
and the result is exactly the parsability of the remainder — so a prefix
match alone never makes the date valid.  `ABT 1950` with `%Y` is
accepted. -/
theorem C4_thm :
    (∀ (s : String) (fmts : List String) (p : String),
      (sStartsWith (sUpper s) "BET " && strHasSub (sUpper s) " AND ") = false →
      prefixes_to_strip.find? (fun q => sStartsWith (sUpper s) q) = some p →
      _validate_date_value s fmts = _is_date_parsable (sDropChars s p.data.length) fmts) ∧
    _validate_date_value "ABT 1950" ["%Y"] = true := by
  refine ⟨?_, by decide⟩
  intro s fmts p hbet hfind
  have hsne : s ≠ "" := by
    intro he
    subst he
    have hnone : prefixes_to_strip.find? (fun q => sStartsWith (sUpper "") q) = none := by decide
    rw [hnone] at hfind
    cases hfind
  unfold _validate_date_value
  rw [if_neg hsne, hbet, if_neg Bool.false_ne_true, hfind]

/-- C5: the empty date is valid; a non-empty bare date text (not a
`BET`-range, no recognized qualifier prefix) is valid iff its stripped
form strictly parses against at least one accepted format (whole-string
`strptime`, formats tried in order with the first success sufficing);
the claim's two examples hold. -/
theorem C5_thm :
    (∀ fmts : List String, _validate_date_value "" fmts = true) ∧
    (∀ (s : String) (fmts : List String),
      s ≠ "" →
      (sStartsWith (sUpper s) "BET " && strHasSub (sUpper s) " AND ") = false →
      prefixes_to_strip.find? (fun q => sStartsWith (sUpper s) q) = none →
      (_validate_date_value s fmts = true ↔
        ∃ fmt ∈ fmts, strptimeOk (pyStripS s) fmt = true)) ∧
    _validate_date_value "1 JAN 1900" ["%d %b %Y"] = true ∧
    _validate_date_value "32 JAN 1900" ["%d %b %Y"] = false := by
  refine ⟨fun fmts => rfl, ?_, by decide, by decide⟩
  intro s fmts hne hbet hfind
  unfold _validate_date_value
  rw [if_neg hne, hbet, if_neg Bool.false_ne_true, hfind]
  show _is_date_parsable s fmts = true ↔ _
  unfold _is_date_parsable
  rw [if_neg hne]
  exact List.any_eq_true

/-- C4 witness: the characterization applied at `EST 1 JAN 1900`. -/
theorem C4_witness :
    _validate_date_value "EST 1 JAN 1900" ["%d %b %Y"] =
      _is_date_parsable (sDropChars "EST 1 JAN 1900" ("EST " : String).data.length) ["%d %b %Y"] :=
  C4_thm.1 "EST 1 JAN 1900" ["%d %b %Y"] "EST " (by decide) (by decide)

/-- C5 witness: the bare-date characterization applied at `7 FEB 1950`. -/
theorem C5_witness :
    _validate_date_value "7 FEB 1950" ["%d %b %Y"] = true ↔
      ∃ fmt ∈ ["%d %b %Y"], strptimeOk (pyStripS "7 FEB 1950") fmt = true :=
  C5_thm.2.1 "7 FEB 1950" ["%d %b %Y"] (by decide) (by decide) (by decide)

/-- C10: with an empty accepted-formats list (the implied default for
`preferred_date_formats`) every non-empty date text is invalid — bare,
qualifier-prefixed and ranges alike — so a DATE check produces a finding
exactly when the (trimmed) DATE value is non-empty, while empty dates
produce none; evaluated end-to-end on a one-individual tree under the
all-defaults configuration. -/
theorem C10_thm :
    (∀ s : String, s ≠ "" → _validate_date_value s [] = false) ∧
    (∀ (rt st rid path : String) (ev : GedElem),
      eventDateFindings rt st [] rid path ev ≠ [] ↔
        ∃ dt, ev.child_tag "DATE" = some dt ∧ pyStripS dt.value ≠ "") ∧
    validate_formats c3ReaderB cfgAllAbsent = .ok [dateFindingI2] := by
  refine ⟨validateNilFalse, ?_, by rfl⟩
  intro rt st rid path ev
  unfold eventDateFindings
  cases hdt : ev.child_tag "DATE" with
  | none => simp
  | some dt =>
    by_cases h1 : dt.value = ""
    · simp [h1, pyStripSEmpty]
    · simp only [if_neg h1]
      by_cases h2 : pyStripS dt.value = ""
      · simp [h2]
      · have hv := validateNilFalse _ h2
        simp [h2, hv]

/-- C10 witness: the empty-format rejection applied at `ABT 1950`. -/
theorem C10_witness : _validate_date_value "ABT 1950" [] = false :=
  C10_thm.1 "ABT 1950" (by decide)

/-- C7: the empty place is valid; a non-empty place is valid iff its
comma-segment count equals some template's segment count, or it is
single-segment and some template is single-segment; segment content is
never inspected (the verdict depends only on the segment count); the
claim's two examples hold. -/
theorem C7_thm :
    (∀ structs : List String, _validate_place_structure "" structs = true) ∧
    (∀ (s : String) (structs : List String), s ≠ "" →
      (_validate_place_structure s structs = true ↔
        (∃ t ∈ structs, (pySplitComma s.data).length = (pySplitComma t.data).length) ∨
        ((pySplitComma s.data).length = 1 ∧ ∃ t ∈ structs, (pySplitComma t.data).length = 1))) ∧
    (∀ (s s' : String) (structs : List String), s ≠ "" → s' ≠ "" →
      (pySplitComma s.data).length = (pySplitComma s'.data).length →
      _validate_place_structure s structs = _validate_place_structure s' structs) ∧
    _validate_place_structure "City, State, Country" ["City, State, Country"] = true ∧
    _validate_place_structure "OnlyCountry" ["City, Country"] = false := by
  have key : ∀ (s : String) (structs : List String), s ≠ "" →
      (_validate_place_structure s structs = true ↔
        (∃ t ∈ structs, (pySplitComma s.data).length = (pySplitComma t.data).length) ∨
        ((pySplitComma s.data).length = 1 ∧ ∃ t ∈ structs, (pySplitComma t.data).length = 1)) := by
    intro s structs hne
    unfold _validate_place_structure
    rw [if_neg hne]
    split_ifs with hA hB
    · refine iff_of_true rfl (Or.inl ?_)
      obtain ⟨t, ht, hbeq⟩ := List.any_eq_true.mp hA
      exact ⟨t, ht, beq_iff_eq.mp hbeq⟩
    · rw [Bool.and_eq_true] at hB
      refine iff_of_true rfl (Or.inr ⟨beq_iff_eq.mp hB.1, ?_⟩)
      obtain ⟨t, ht, hbeq⟩ := List.any_eq_true.mp hB.2
      exact ⟨t, ht, beq_iff_eq.mp hbeq⟩
    · refine iff_of_false (by simp) ?_
      rintro (⟨t, ht, hlen⟩ | ⟨h1, t, ht, ht1⟩)
      · exact hA (List.any_eq_true.mpr ⟨t, ht, by simp [hlen]⟩)
      · refine hB ?_
        rw [Bool.and_eq_true]
        exact ⟨by simp [h1], List.any_eq_true.mpr ⟨t, ht, by simp [ht1]⟩⟩
  refine ⟨fun structs => rfl, key, ?_, by decide, by decide⟩
  intro s s' structs hs hs' hlen
  have k1 := key s structs hs
  have k2 := key s' structs hs'
  rw [hlen] at k1
  exact Bool.eq_iff_iff.mpr (k1.trans k2.symm)

/-- C7 witness: the segment-count characterization applied at a place
with two segments against a one-template list. -/
theorem C7_witness :
    _validate_place_structure "A, B" ["X, Y"] = true ↔
      (∃ t ∈ ["X, Y"], (pySplitComma ("A, B" : String).data).length =
        (pySplitComma t.data).length) ∨
      ((pySplitComma ("A, B" : String).data).length = 1 ∧
        ∃ t ∈ ["X, Y"], (pySplitComma t.data).length = 1) :=
  C7_thm.2.1 "A, B" ["X, Y"] (by decide)

/-- C6: for an individual with a NAME tag, exactly these name findings
arise: a stripped value that is empty, `/` or `//` gives the
missing-or-empty finding; otherwise with enforcement on, no extracted
surname and no slash gives the missing-delimiters finding (with its
suggestion); otherwise a slash-containing value with no surname and at
least two slashes gives the malformed finding; in every other case
(enforcement off, a surname extracted, or a single stray slash) no name
finding is produced. -/
theorem C6_thm :
    ∀ (enforce : Bool) (rid pb : String) (indi nt : GedElem),
      indi.child_tag "NAME" = some nt →
      ((pyStripS nt.value = "" ∨ pyStripS nt.value = "/" ∨ pyStripS nt.value = "//") →
        nameFindings enforce rid pb indi =
          [_create_finding "Format Error" "Individual" rid (pb ++ "/NAME") nt.value
            "Name is missing or appears to be empty." none none]) ∧
      (¬(pyStripS nt.value = "" ∨ pyStripS nt.value = "/" ∨ pyStripS nt.value = "//") →
        enforce = true → nt.surname = "" → '/' ∉ nt.value.data →
        nameFindings enforce rid pb indi =
          [_create_finding "Format Error" "Individual" rid (pb ++ "/NAME") nt.value
            "Name does not appear to use standard GEDCOM surname slashes (e.g., First /Surname/)."
            none (some "Ensure surname is enclosed in slashes like /SURNAME/.")]) ∧
      (¬(pyStripS nt.value = "" ∨ pyStripS nt.value = "/" ∨ pyStripS nt.value = "//") →
        enforce = true → nt.surname = "" → '/' ∈ nt.value.data →
        2 ≤ nt.value.data.count '/' →
        nameFindings enforce rid pb indi =
          [_create_finding "Format Error" "Individual" rid (pb ++ "/NAME") nt.value
            "Name contains slashes, but surname part might be empty or malformed (e.g., 'Name / /')."
            none (some "Check surname formatting between slashes.")]) ∧
      (¬(pyStripS nt.value = "" ∨ pyStripS nt.value = "/" ∨ pyStripS nt.value = "//") →
        (enforce = false ∨ nt.surname ≠ "" ∨
          ('/' ∈ nt.value.data ∧ nt.value.data.count '/' < 2)) →
        nameFindings enforce rid pb indi = []) := by
  intro enforce rid pb indi nt hchild
  unfold nameFindings
  simp only [hchild]
  refine ⟨?_, ?_, ?_, ?_⟩
  · intro hdeg
    rw [if_pos hdeg]
  · intro hdeg henf hsur hsl
    subst henf
    simp [hdeg, hsur, hsl]
  · intro hdeg henf hsur hsl hcnt
    subst henf
    simp [hdeg, hsur, hsl, hcnt]
  · intro hdeg hoth
    rcases hoth with henf | hsur | ⟨hsl, hcnt⟩
    · subst henf
      simp [hdeg]
    · cases enforce
      · simp [hdeg]
      · simp [hdeg, hsur]
    · have hnle : ¬ (2 ≤ nt.value.data.count '/') := Nat.not_le.mpr hcnt
      cases enforce
      · simp [hdeg]
      · simp [hdeg, hsl, hnle]

/-- C6 witness: the malformed-delimiters case applied at `Name / /`. -/
theorem C6_witness :
    nameFindings true "@I9@" "INDI:@I9@" c6Indi =
      [_create_finding "Format Error" "Individual" "@I9@" "INDI:@I9@/NAME" "Name / /"
        "Name contains slashes, but surname part might be empty or malformed (e.g., 'Name / /')."
        none (some "Check surname formatting between slashes.")] :=
  (C6_thm true "@I9@" "INDI:@I9@" c6Indi (GedElem.mk "NAME" none "Name / /" "" [])
    rfl).2.2.1 (by decide) rfl rfl (by decide) (by decide)

/-- C3 (amended): findings never short-circuit the traversal — whenever
`expected_place_format_structures` is non-empty (so the one reachable
exception, the `IndexError` of the place-finding message, cannot occur)
`validate_formats` visits every record and field and returns the full
per-record concatenation of findings.  However, per-record isolation
does NOT hold: an exception raised while checking one record aborts the
remaining records' checks inside `validate_formats` and surfaces to the
caller, which catches it only at whole-module granularity. -/
theorem C3_thm :
    ∀ (reader : GedcomReader) (config : Config),
      config.expected_place_format_structures.getD [] ≠ [] →
      validate_formats reader config = .ok (orderedFindings reader config) :=
  validateFormatsOk

/-- C3 counterexample: with the all-defaults configuration, the first
individual's place check raises, aborting the run — the second
individual's date finding (produced when that record is validated alone)
is suppressed, so one record's exception does suppress the checks of the
other records. -/
theorem C3_counterexample :
    validate_formats c3Reader cfgAllAbsent =
      Except.error "IndexError: list index out of range" ∧
    validate_formats c3ReaderB cfgAllAbsent = Except.ok [dateFindingI2] :=
  ⟨rfl, rfl⟩

/-- C3 witness: the exception-free completion applied at a concrete
reader and a configuration with a non-empty template list. -/
theorem C3_witness :
    validate_formats c3ReaderB cfgFull = Except.ok (orderedFindings c3ReaderB cfgFull) :=
  C3_thm c3ReaderB cfgFull (by decide)

/-- C8: every finding list returned by `validate_formats` is exactly the
traversal-ordered concatenation `orderedFindings`: all individuals'
findings before all families', within an individual the name finding
before its event findings, events grouped in the fixed tag order
(`BIRT, DEAT, CHR, ADOP, BURI, EVEN` resp. `MARR, DIV, ANUL, ENGA,
EVEN`), and within one event the DATE finding before the PLAC finding. -/
theorem C8_thm :
    ∀ (reader : GedcomReader) (config : Config) (l : List Finding),
      validate_formats reader config = .ok l → l = orderedFindings reader config :=
  validateFormatsOkInv

/-- C8 witness: the ordering decomposition applied at a concrete run. -/
theorem C8_witness : [dateFindingI2] = orderedFindings c3ReaderB cfgAllAbsent :=
  C8_thm c3ReaderB cfgAllAbsent [dateFindingI2] (by rfl)
